import Mathlib

/-!
Verification of `gitlab-export.py`, a GitLab → CSV exporter.

The script is embedded shallowly:

* pure helpers (`access_level_name`, the member-token computation inside
  `format_members`) become Lean functions on `Option`-typed records
  (an absent Python attribute, read through `safe_get`, is `none`);
* the paginated walker (`iter_all`) becomes explicit page lists, where a
  page fetch that raises is an `Except.error` page;
* each exporter (`export_projects`, `export_groups`, `export_users`)
  becomes a function from its API collaborators to the list of CSV rows
  it flushes plus the error it lets propagate, if any;
* `main` becomes a function threading a filesystem (an association list of
  file names to row lists) through the staged exporter calls.

Python string order (`sorted`) is lexicographic on code points, which is
the lexicographic order on the underlying `List Char`; we sort by
`(·.data ≤ ·.data)`, which agrees with `String.le` (`String.le_iff_toList_le`)
and reduces in the kernel.
-/

namespace GitlabExport

/-- The dict `ACCESS_LEVELS`: the fixed numeric-code → role-name mapping. -/
def ACCESS_LEVELS : Int → Option String := fun level =>
  if level = 10 then some "Guest"
  else if level = 20 then some "Reporter"
  else if level = 30 then some "Developer"
  else if level = 40 then some "Maintainer"
  else if level = 50 then some "Owner"
  else none

/-- Function `access_level_name(level)`: `""` for `None`, the mapped role name for a
known code, and `str(level)` for an unknown code. -/
def access_level_name : Option Int → String
  | none => ""
  | some level => (ACCESS_LEVELS level).getD (toString level)

/-- A raw membership entry as `format_members` reads it through `safe_get`:
each attribute may be absent (`none`). -/
structure Member where
  username : Option String
  name : Option String
  id : Option Int
  access_level : Option Int
deriving DecidableEq

/-- The value `safe_get(m, "username", "") or ""` from the loop body of
`format_members`. -/
def Member.usernameVal (m : Member) : String := m.username.getD ""

/-- The value `safe_get(m, "name", "") or ""` from the loop body of `format_members`. -/
def Member.nameVal (m : Member) : String := m.name.getD ""

/-- The f-string interpolation of `safe_get(m, 'id', '')`: absent ids render
as the empty string, present ids in decimal. -/
def Member.idStr (m : Member) : String :=
  match m.id with
  | none => ""
  | some i => toString i

/-- The identity token of one entry: `username if username else name`, and
`f"user_id_{...}"` when both are empty. -/
def member_ident (m : Member) : String :=
  let ident := if m.usernameVal ≠ "" then m.usernameVal else m.nameVal
  if ident ≠ "" then ident else "user_id_" ++ m.idStr

/-- The string appended to `members_parts` for one entry:
`f"{ident}:{role}"`. -/
def member_token (m : Member) : String :=
  member_ident m ++ ":" ++ access_level_name m.access_level

/-- The comparison used by `sorted`: code-point lexicographic order,
expressed on the character data so that it evaluates. -/
def strLe (a b : String) : Prop := a.data ≤ b.data

instance : DecidableRel strLe := fun a b =>
  inferInstanceAs (Decidable (a.data ≤ b.data))

/-- Model of `sorted(set(parts))`: the distinct elements, in ascending string order. -/
def dedupSort (parts : List String) : List String :=
  parts.dedup.insertionSort strLe

/-- Function `format_members(members_iter)`: derive one token per entry, deduplicate
into a set, sort, join with `";"`. -/
def format_members (members : List Member) : String :=
  String.intercalate ";" (dedupSort (members.map member_token))

theorem strLe_iff (a b : String) : strLe a b ↔ a ≤ b :=
  (String.le_iff_toList_le).symm

instance : IsTrans String strLe :=
  ⟨fun a b c hab hbc =>
    (strLe_iff a c).mpr (le_trans ((strLe_iff a b).mp hab) ((strLe_iff b c).mp hbc))⟩

instance : IsAntisymm String strLe :=
  ⟨fun a b hab hba => le_antisymm ((strLe_iff a b).mp hab) ((strLe_iff b a).mp hba)⟩

instance : IsTotal String strLe :=
  ⟨fun a b => by
    rcases le_total a b with h | h
    · exact Or.inl ((strLe_iff a b).mpr h)
    · exact Or.inr ((strLe_iff b a).mpr h)⟩

/-- The function `dedupSort` depends only on the set of its input strings. -/
theorem dedupSort_eq_of_mem_iff {l₁ l₂ : List String}
    (h : ∀ t, t ∈ l₁ ↔ t ∈ l₂) : dedupSort l₁ = dedupSort l₂ := by
  have hmid : l₁.dedup.Perm l₂.dedup := by
    rw [List.perm_ext_iff_of_nodup l₁.nodup_dedup l₂.nodup_dedup]
    intro a
    simpa only [List.mem_dedup] using h a
  exact List.eq_of_perm_of_sorted
    ((List.perm_insertionSort strLe l₁.dedup).trans
      (hmid.trans (List.perm_insertionSort strLe l₂.dedup).symm))
    (List.sorted_insertionSort strLe l₁.dedup)
    (List.sorted_insertionSort strLe l₂.dedup)

end GitlabExport

namespace GitlabExport

/-! ### Theorems about the claims on the pure member/role helpers -/

/-- C2: `access_level_name` maps the five known codes to their role names,
every other non-null code to its decimal string, and `None` to `""`. -/
theorem access_level_name_spec :
    access_level_name none = "" ∧
    access_level_name (some 10) = "Guest" ∧
    access_level_name (some 20) = "Reporter" ∧
    access_level_name (some 30) = "Developer" ∧
    access_level_name (some 40) = "Maintainer" ∧
    access_level_name (some 50) = "Owner" ∧
    ∀ l : Int, l ∉ ([10, 20, 30, 40, 50] : List Int) →
      access_level_name (some l) = toString l := by
  refine ⟨rfl, rfl, rfl, rfl, rfl, rfl, fun l hl => ?_⟩
  simp only [List.mem_cons, List.not_mem_nil, or_false, not_or] at hl
  obtain ⟨h10, h20, h30, h40, h50⟩ := hl
  simp [access_level_name, ACCESS_LEVELS, h10, h20, h30, h40, h50]

/-- Witness for C2 at the unknown code 12. -/
theorem access_level_name_spec_witness : access_level_name (some 12) = "12" :=
  access_level_name_spec.2.2.2.2.2.2 12 (by decide)

/-- C1: two member lists whose derived `identity:role` token collections are
set-equal produce the same `format_members` output. -/
theorem format_members_order_independent (ms₁ ms₂ : List Member)
    (h : ∀ t, t ∈ ms₁.map member_token ↔ t ∈ ms₂.map member_token) :
    format_members ms₁ = format_members ms₂ := by
  unfold format_members
  rw [dedupSort_eq_of_mem_iff h]

/-- Witness for C1: swapping the input order leaves the output unchanged. -/
theorem format_members_order_independent_witness :
    format_members
        [⟨some "alice", none, none, some 30⟩, ⟨none, some "Bob X", none, some 50⟩] =
      format_members
        [⟨none, some "Bob X", none, some 50⟩, ⟨some "alice", none, none, some 30⟩] :=
  format_members_order_independent _ _
    (fun t => by simp only [List.map_cons, List.map_nil, List.mem_cons,
      List.not_mem_nil, or_false]; tauto)

/-- C3: the identity token is the username when non-empty, else the name when
non-empty, else `user_id_<id>`; the emitted token is `identity:role`. -/
theorem member_token_spec (m : Member) :
    (m.usernameVal ≠ "" → member_ident m = m.usernameVal) ∧
    (m.usernameVal = "" → m.nameVal ≠ "" → member_ident m = m.nameVal) ∧
    (m.usernameVal = "" → m.nameVal = "" → member_ident m = "user_id_" ++ m.idStr) ∧
    member_token m = member_ident m ++ ":" ++ access_level_name m.access_level := by
  refine ⟨fun hu => ?_, fun hu hn => ?_, fun hu hn => ?_, rfl⟩
  · simp [member_ident, hu]
  · simp [member_ident, hu, hn]
  · simp [member_ident, hu, hn]

/-- Witness for C3, covering the three identity fallbacks. -/
theorem member_token_spec_witness :
    member_ident ⟨some "alice", some "Alice A", some 7, some 30⟩ = "alice" ∧
    member_ident ⟨none, some "Alice A", some 7, some 30⟩ = "Alice A" ∧
    member_ident ⟨none, none, some 7, some 30⟩ = "user_id_7" :=
  ⟨(member_token_spec ⟨some "alice", some "Alice A", some 7, some 30⟩).1 (by decide),
   (member_token_spec ⟨none, some "Alice A", some 7, some 30⟩).2.1 (by decide) (by decide),
   (member_token_spec ⟨none, none, some 7, some 30⟩).2.2.1 (by decide) (by decide)⟩

/-- C4: entries at two distinct positions with the same derived token
collapse: the token occurs exactly once in the sorted token list that
`format_members` joins. -/
theorem format_members_dedup (ms : List Member) (t : String)
    (i j : Nat) (hi : i < ms.length) (hj : j < ms.length) (hij : i ≠ j)
    (ht : member_token ms[i] = t)
    (ht' : member_token ms[j] = t) :
    (dedupSort (ms.map member_token)).count t = 1 := by
  have hmem : t ∈ (ms.map member_token).dedup := by
    rw [List.mem_dedup]
    exact ht ▸ List.mem_map_of_mem member_token (List.getElem_mem hi)
  have hnodup : (dedupSort (ms.map member_token)).Nodup :=
    ((List.perm_insertionSort strLe (ms.map member_token).dedup).nodup_iff).mpr
      (ms.map member_token).nodup_dedup
  exact List.count_eq_one_of_mem hnodup ((List.mem_insertionSort strLe).mpr hmem)

/-- Witness for C4: two identical entries yield token count 1. -/
theorem format_members_dedup_witness :
    (dedupSort (List.map member_token
        [(⟨some "alice", none, none, some 30⟩ : Member),
         ⟨some "alice", none, none, some 30⟩])).count "alice:Developer" = 1 :=
  format_members_dedup
    [⟨some "alice", none, none, some 30⟩, ⟨some "alice", none, none, some 30⟩]
    "alice:Developer" 0 1 (by decide) (by decide) (by decide) (by decide) (by decide)

/-- C9: with username, name and id all absent the identity is the literal
`user_id_`; with the access level absent the token ends in `:` (empty role). -/
theorem member_token_missing_fields (m : Member) :
    (m.username = none → m.name = none → m.id = none → member_ident m = "user_id_") ∧
    (m.access_level = none → member_token m = member_ident m ++ ":") := by
  constructor
  · intro hu hn hid
    simp [member_ident, Member.usernameVal, Member.nameVal, Member.idStr, hu, hn, hid]
  · intro hl
    simp [member_token, access_level_name, hl]

/-- Witness for C9: the fully-absent entry and an `alice` entry without an
access level. -/
theorem member_token_missing_fields_witness :
    member_ident ⟨none, none, none, none⟩ = "user_id_" ∧
    member_token ⟨some "alice", none, none, none⟩ = "alice:" := by
  refine ⟨(member_token_missing_fields ⟨none, none, none, none⟩).1 rfl rfl rfl, ?_⟩
  have h := (member_token_missing_fields ⟨some "alice", none, none, none⟩).2 rfl
  rw [h]
  decide

end GitlabExport

namespace GitlabExport

/-! ### The exporters and the orchestrator

Each exporter is embedded as a function from its API collaborators to the
pair (CSV rows flushed, the exception that escaped the loop, if any).
A CSV file is its list of rows; a row is its list of cell strings.
-/

/-- How Python's `csv` renders a `bool` cell. -/
def pyBool (b : Bool) : String := if b then "True" else "False"

/-- An optional string attribute rendered into a cell (`safe_get(_, _, "")`). -/
def optStr (o : Option String) : String := o.getD ""

/-- An optional integer attribute rendered into a cell: `""` when absent,
decimal otherwise. -/
def optIntStr : Option Int → String
  | none => ""
  | some i => toString i

/-- A project detail record (`gl.projects.get(...)`): every attribute other
than `id` is read through `safe_get` and may be absent. -/
structure Project where
  id : Int
  name : Option String
  path_with_namespace : Option String
  http_url_to_repo : Option String
  default_branch : Option String
  visibility : Option String
  archived : Option Bool
deriving DecidableEq

/-- A group detail record (`gl.groups.get(...)`). -/
structure Group where
  id : Int
  name : Option String
  full_path : Option String
  web_url : Option String
  visibility : Option String
  parent_id : Option Int
deriving DecidableEq

/-- A user detail record (`gl.users.get(...)`). -/
structure User where
  id : Int
  username : Option String
  name : Option String
  state : Option String
  is_admin : Option Bool
  external : Option Bool
  bot : Option Bool
  email : Option String
  created_at : Option String
  last_sign_in_at : Option String
deriving DecidableEq

/-- A listing-page item; the loops only read its `id`. -/
structure ProjectStub where
  id : Int
deriving DecidableEq

/-- A listing-page item for groups. -/
structure GroupStub where
  id : Int
deriving DecidableEq

/-- A listing-page item for users. -/
structure UserStub where
  id : Int
deriving DecidableEq

/-- One CSV record. -/
abbrev Row := List String

/-- The `fieldnames` of `projects.csv` / `archived_projects.csv`. -/
def projectsHeader : Row :=
  ["project_id", "project_name", "project_path_with_namespace",
   "http_url_to_repo", "default_branch", "visibility", "archived", "members"]

/-- The `fieldnames` of `groups.csv`. -/
def groupsHeader : Row :=
  ["group_id", "group_name", "group_full_path", "web_url", "visibility",
   "parent_id", "members"]

/-- The `fieldnames` of `users.csv`. -/
def usersHeader : Row :=
  ["user_id", "username", "name", "state", "is_admin", "external", "bot",
   "email", "created_at", "last_sign_in_at"]

/-- The `writer.writerow` dict of `export_projects`, in field order. -/
def projectRow (p : Project) (members : String) : Row :=
  [toString p.id, optStr p.name, optStr p.path_with_namespace,
   optStr p.http_url_to_repo, optStr p.default_branch, optStr p.visibility,
   pyBool (p.archived.getD false), members]

/-- The `writer.writerow` dict of `export_groups`, in field order. -/
def groupRow (g : Group) (members : String) : Row :=
  [toString g.id, optStr g.name, optStr g.full_path, optStr g.web_url,
   optStr g.visibility, optIntStr g.parent_id, members]

/-- The `writer.writerow` dict of `export_users`, in field order. -/
def userRow (u : User) : Row :=
  [toString u.id, optStr u.username, optStr u.name, optStr u.state,
   pyBool (u.is_admin.getD false), pyBool (u.external.getD false),
   pyBool (u.bot.getD false), optStr u.email, optStr u.created_at,
   optStr u.last_sign_in_at]

/-- Model of `iter_all`: the lazy page walk. A page is either its items or the
exception its fetch raises; the walk yields the items of the pages before
the first failing fetch, together with that fetch's exception, if any. -/
def drainPages {ε α : Type} : List (Except ε (List α)) → List α × Option ε
  | [] => ([], none)
  | Except.error e :: _ => ([], some e)
  | Except.ok pg :: rest =>
      let r := drainPages rest
      (pg ++ r.1, r.2)

/-- The `for p in projects` loop body of `export_projects`: re-fetch the
detail, fetch the members, flush one row; an exception from either fetch
stops the loop, keeping the rows flushed so far. -/
def projectsLoop {ε : Type} (getDetail : Int → Except ε Project)
    (getMembers : Int → Except ε (List Member)) :
    List ProjectStub → List Row × Option ε
  | [] => ([], none)
  | s :: rest =>
      match getDetail s.id with
      | Except.error e => ([], some e)
      | Except.ok proj =>
          match getMembers proj.id with
          | Except.error e => ([], some e)
          | Except.ok ms =>
              let r := projectsLoop getDetail getMembers rest
              (projectRow proj (format_members ms) :: r.1, r.2)

/-- The `for g in groups` loop body of `export_groups`. -/
def groupsLoop {ε : Type} (getDetail : Int → Except ε Group)
    (getMembers : Int → Except ε (List Member)) :
    List GroupStub → List Row × Option ε
  | [] => ([], none)
  | s :: rest =>
      match getDetail s.id with
      | Except.error e => ([], some e)
      | Except.ok grp =>
          match getMembers grp.id with
          | Except.error e => ([], some e)
          | Except.ok ms =>
              let r := groupsLoop getDetail getMembers rest
              (groupRow grp (format_members ms) :: r.1, r.2)

/-- The `for u in users` loop body of `export_users`. -/
def usersLoop {ε : Type} (getDetail : Int → Except ε User) :
    List UserStub → List Row × Option ε
  | [] => ([], none)
  | s :: rest =>
      match getDetail s.id with
      | Except.error e => ([], some e)
      | Except.ok user =>
          let r := usersLoop getDetail rest
          (userRow user :: r.1, r.2)

/-- Function `export_projects`: header first, then walk the pages of the (archived-
filtered) project listing, choosing the member scope; a loop exception wins
over a later page-fetch exception since the loop stops first. -/
def export_projects {ε : Type} (pages : List (Except ε (List ProjectStub)))
    (getDetail : Int → Except ε Project)
    (membersAll membersDirect : Int → Except ε (List Member))
    (members_scope : String) : List Row × Option ε :=
  let drained := drainPages pages
  let getMembers := if members_scope = "all" then membersAll else membersDirect
  let r := projectsLoop getDetail getMembers drained.1
  (projectsHeader :: r.1,
    match r.2 with
    | some e => some e
    | none => drained.2)

/-- Function `export_groups`: header first, then the group walk. -/
def export_groups {ε : Type} (pages : List (Except ε (List GroupStub)))
    (getDetail : Int → Except ε Group)
    (membersAll membersDirect : Int → Except ε (List Member))
    (members_scope : String) : List Row × Option ε :=
  let drained := drainPages pages
  let getMembers := if members_scope = "all" then membersAll else membersDirect
  let r := groupsLoop getDetail getMembers drained.1
  (groupsHeader :: r.1,
    match r.2 with
    | some e => some e
    | none => drained.2)

/-- Function `export_users`: header first, then the user walk (no membership fetch). -/
def export_users {ε : Type} (pages : List (Except ε (List UserStub)))
    (getDetail : Int → Except ε User) : List Row × Option ε :=
  let drained := drainPages pages
  let r := usersLoop getDetail drained.1
  (usersHeader :: r.1,
    match r.2 with
    | some e => some e
    | none => drained.2)

/-- The filesystem: file names with their current rows. -/
abbrev FS := List (String × List Row)

/-- Current content of `name`, if the file exists. -/
def lookupFile : FS → String → Option (List Row)
  | [], _ => none
  | (n, c) :: rest, name => if n = name then some c else lookupFile rest name

/-- Opening `out_csv.open("w")` followed by the exporter's writes: create or
truncate `name`, leaving every other file unchanged. -/
def writeFile : FS → String → List Row → FS
  | [], name, content => [(name, content)]
  | (n, c) :: rest, name, content =>
      if n = name then (n, content) :: rest
      else (n, c) :: writeFile rest name content

/-- The authenticated API client as the exporters see it. -/
structure Api (ε : Type) where
  auth : Except ε Unit
  projectPages : Bool → List (Except ε (List ProjectStub))
  projectDetail : Int → Except ε Project
  projectMembersAll : Int → Except ε (List Member)
  projectMembersDirect : Int → Except ε (List Member)
  groupPages : List (Except ε (List GroupStub))
  groupDetail : Int → Except ε Group
  groupMembersAll : Int → Except ε (List Member)
  groupMembersDirect : Int → Except ε (List Member)
  userPages : List (Except ε (List UserStub))
  userDetail : Int → Except ε User

/-- The exporter stages `main` can start, in source order. -/
inductive Stage where
  | activeProjects
  | archivedProjects
  | groups
  | users
deriving DecidableEq, Repr

/-- The observable outcome of one `main()` invocation. `exitCode` is
`some 2` exactly on the missing-URL/token paths; an exception that escapes
(auth failure or a transport error during a walk) is recorded in `err` and
ends the process abnormally. -/
structure MainResult (ε : Type) where
  exitCode : Option Nat
  dirCreated : Option String
  authAttempted : Bool
  fs : FS
  stages : List Stage
  err : Option ε
  reportedDir : Option String
deriving DecidableEq

/-- The parsed CLI arguments `main` consumes (SSL and sleep options do not
affect the observable file/stage behaviour and are omitted). -/
structure Args where
  url : String
  token : String
  outdir : String
  includeArchived : Bool
  membersScope : String

/-- The groups stage followed by the users stage, shared by the two
archived-flag branches of `main`. -/
def groupsUsersStages {ε : Type} (api : Api ε) (scope outdir : String)
    (fs : FS) (stagesSoFar : List Stage) : MainResult ε :=
  let rg := export_groups api.groupPages api.groupDetail
              api.groupMembersAll api.groupMembersDirect scope
  let fsg := writeFile fs "groups.csv" rg.1
  match rg.2 with
  | some e =>
      { exitCode := none, dirCreated := some outdir, authAttempted := true,
        fs := fsg, stages := stagesSoFar ++ [Stage.groups], err := some e,
        reportedDir := none }
  | none =>
      let ru := export_users api.userPages api.userDetail
      let fsu := writeFile fsg "users.csv" ru.1
      match ru.2 with
      | some e =>
          { exitCode := none, dirCreated := some outdir, authAttempted := true,
            fs := fsu, stages := stagesSoFar ++ [Stage.groups, Stage.users],
            err := some e, reportedDir := none }
      | none =>
          { exitCode := none, dirCreated := some outdir, authAttempted := true,
            fs := fsu, stages := stagesSoFar ++ [Stage.groups, Stage.users],
            err := none, reportedDir := some outdir }

/-- Function `main()`: argument checks, output directory, `gl.auth()`, then the
staged exporter calls; `stamp` stands for `utc_stamp()`. -/
def mainRun {ε : Type} (args : Args) (stamp : String) (fs0 : FS)
    (api : Api ε) : MainResult ε :=
  if args.url = "" then
    { exitCode := some 2, dirCreated := none, authAttempted := false,
      fs := fs0, stages := [], err := none, reportedDir := none }
  else if args.token = "" then
    { exitCode := some 2, dirCreated := none, authAttempted := false,
      fs := fs0, stages := [], err := none, reportedDir := none }
  else
    let outdir := if args.outdir = "" then "gitlab_export_" ++ stamp else args.outdir
    match api.auth with
    | Except.error e =>
        { exitCode := none, dirCreated := some outdir, authAttempted := true,
          fs := fs0, stages := [], err := some e, reportedDir := none }
    | Except.ok _ =>
        let r1 := export_projects (api.projectPages false) api.projectDetail
                    api.projectMembersAll api.projectMembersDirect args.membersScope
        let fs1 := writeFile fs0 "projects.csv" r1.1
        match r1.2 with
        | some e =>
            { exitCode := none, dirCreated := some outdir, authAttempted := true,
              fs := fs1, stages := [Stage.activeProjects], err := some e,
              reportedDir := none }
        | none =>
            if args.includeArchived then
              let r2 := export_projects (api.projectPages true) api.projectDetail
                          api.projectMembersAll api.projectMembersDirect args.membersScope
              let fs2 := writeFile fs1 "archived_projects.csv" r2.1
              match r2.2 with
              | some e =>
                  { exitCode := none, dirCreated := some outdir,
                    authAttempted := true, fs := fs2,
                    stages := [Stage.activeProjects, Stage.archivedProjects],
                    err := some e, reportedDir := none }
              | none =>
                  groupsUsersStages api args.membersScope outdir fs2
                    [Stage.activeProjects, Stage.archivedProjects]
            else
              groupsUsersStages api args.membersScope outdir fs1
                [Stage.activeProjects]

end GitlabExport

namespace GitlabExport

/-! ### Helper lemmas on the walker, the loops and the filesystem -/

/-- A walk over pages that all fetch successfully yields every item,
in page order, and raises nothing. -/
theorem drainPages_ok {ε α : Type} (pages : List (List α)) :
    drainPages (ε := ε) (pages.map Except.ok) = (pages.flatten, none) := by
  induction pages with
  | nil => rfl
  | cons p ps ih => simp [drainPages, ih]

/-- A walk whose pages fetch successfully until one page fetch raises yields
exactly the items of the earlier pages, then raises. -/
theorem drainPages_error {ε α : Type} (pages : List (List α)) (e : ε)
    (rest : List (Except ε (List α))) :
    drainPages (pages.map Except.ok ++ Except.error e :: rest) =
      (pages.flatten, some e) := by
  induction pages with
  | nil => rfl
  | cons p ps ih => simp [drainPages, ih]

/-- The projects loop under all-successful fetches flushes one row per
stub. -/
theorem projectsLoop_ok {ε : Type} (detail : Int → Project)
    (mems : Int → List Member) (stubs : List ProjectStub) :
    projectsLoop (ε := ε) (fun i => Except.ok (detail i))
        (fun i => Except.ok (mems i)) stubs =
      (stubs.map (fun s => projectRow (detail s.id)
        (format_members (mems (detail s.id).id))), none) := by
  induction stubs with
  | nil => rfl
  | cons s ss ih => simp [projectsLoop, ih]

/-- The users loop under all-successful detail fetches flushes one row per
stub. -/
theorem usersLoop_ok {ε : Type} (detail : Int → User) (stubs : List UserStub) :
    usersLoop (ε := ε) (fun i => Except.ok (detail i)) stubs =
      (stubs.map (fun s => userRow (detail s.id)), none) := by
  induction stubs with
  | nil => rfl
  | cons s ss ih => simp [usersLoop, ih]

/-- Writing a file makes its content exactly the written rows. -/
theorem lookupFile_writeFile_self (fs : FS) (name : String) (c : List Row) :
    lookupFile (writeFile fs name c) name = some c := by
  induction fs with
  | nil => simp [writeFile, lookupFile]
  | cons p rest ih =>
      obtain ⟨n, c'⟩ := p
      by_cases h : n = name
      · simp [writeFile, lookupFile, h]
      · simp [writeFile, lookupFile, h, ih]

/-- Writing a file leaves every other file unchanged. -/
theorem lookupFile_writeFile_ne (fs : FS) (name n : String) (c : List Row)
    (h : n ≠ name) :
    lookupFile (writeFile fs name c) n = lookupFile fs n := by
  have hne : name ≠ n := Ne.symm h
  induction fs with
  | nil => simp [writeFile, lookupFile, hne]
  | cons p rest ih =>
      obtain ⟨n', c'⟩ := p
      by_cases h' : n' = name
      · subst h'
        simp [writeFile, lookupFile, hne]
      · simp [writeFile, lookupFile, h', ih]

end GitlabExport

namespace GitlabExport

/-! ### Theorems about the exporter and orchestrator claims -/

/-- C5: over a paginated collection whose pages all fetch successfully and
whose detail re-fetches all succeed, `export_users` emits the header row
followed by exactly one row per listed entity in order — in particular a
0-entity collection yields just the header — and no error is raised. -/
theorem export_users_spec {ε : Type} (pages : List (List UserStub))
    (detail : Int → User) :
    export_users (ε := ε) (pages.map Except.ok) (fun i => Except.ok (detail i)) =
      (usersHeader :: pages.flatten.map (fun s => userRow (detail s.id)), none) ∧
    (export_users (ε := ε) (pages.map Except.ok)
        (fun i => Except.ok (detail i))).1.length = 1 + pages.flatten.length ∧
    export_users (ε := ε) (([] : List (List UserStub)).map Except.ok)
        (fun i => Except.ok (detail i)) = ([usersHeader], none) := by
  have h : export_users (ε := ε) (pages.map Except.ok)
      (fun i => Except.ok (detail i)) =
      (usersHeader :: pages.flatten.map (fun s => userRow (detail s.id)), none) := by
    simp only [export_users, drainPages_ok, usersLoop_ok]
  refine ⟨h, ?_, rfl⟩
  rw [h]
  simp only [List.length_cons, List.length_map]
  omega

/-- C8: a missing URL or token makes `main` exit with status 2 before the
output directory is made, before `gl.auth()` is reached, without touching
any file and without starting any exporter stage. -/
theorem config_error_spec {ε : Type} (args : Args) (stamp : String) (fs0 : FS)
    (api : Api ε) (h : args.url = "" ∨ args.token = "") :
    mainRun args stamp fs0 api =
      { exitCode := some 2, dirCreated := none, authAttempted := false,
        fs := fs0, stages := [], err := none, reportedDir := none } := by
  unfold mainRun
  rcases h with h | h
  · rw [if_pos h]
  · by_cases hu : args.url = ""
    · rw [if_pos hu]
    · rw [if_neg hu, if_pos h]

/-- A fully trivial successful API client, used to instantiate theorems. -/
def trivialApi : Api String where
  auth := Except.ok ()
  projectPages := fun _ => []
  projectDetail := fun i => Except.ok ⟨i, none, none, none, none, none, none⟩
  projectMembersAll := fun _ => Except.ok []
  projectMembersDirect := fun _ => Except.ok []
  groupPages := []
  groupDetail := fun i => Except.ok ⟨i, none, none, none, none, none⟩
  groupMembersAll := fun _ => Except.ok []
  groupMembersDirect := fun _ => Except.ok []
  userPages := []
  userDetail := fun i =>
    Except.ok ⟨i, none, none, none, none, none, none, none, none, none⟩

/-- Witness for C8: no URL given. -/
theorem config_error_spec_witness :
    mainRun ⟨"", "tok", "", false, "all"⟩ "20240101" [] trivialApi =
      { exitCode := some 2, dirCreated := none, authAttempted := false,
        fs := [], stages := [], err := none, reportedDir := none } :=
  config_error_spec ⟨"", "tok", "", false, "all"⟩ "20240101" [] trivialApi
    (Or.inl rfl)

/-- C10: every exporter opens its file in truncate mode — after the write the
file's content is exactly this run's content, whatever was there before —
and that content is the header row followed by the run's data rows. -/
theorem truncate_write_spec :
    (∀ (fs : FS) (name : String) (c : List Row),
      lookupFile (writeFile fs name c) name = some c) ∧
    (∀ (ε : Type) (pages : List (Except ε (List ProjectStub)))
      (gd : Int → Except ε Project) (ma md : Int → Except ε (List Member))
      (scope : String),
      (export_projects pages gd ma md scope).1 =
        projectsHeader ::
          (projectsLoop gd (if scope = "all" then ma else md)
            (drainPages pages).1).1) ∧
    (∀ (ε : Type) (pages : List (Except ε (List GroupStub)))
      (gd : Int → Except ε Group) (ma md : Int → Except ε (List Member))
      (scope : String),
      (export_groups pages gd ma md scope).1 =
        groupsHeader ::
          (groupsLoop gd (if scope = "all" then ma else md)
            (drainPages pages).1).1) ∧
    (∀ (ε : Type) (pages : List (Except ε (List UserStub)))
      (gd : Int → Except ε User),
      (export_users pages gd).1 =
        usersHeader :: (usersLoop gd (drainPages pages).1).1) :=
  ⟨lookupFile_writeFile_self,
   fun _ _ _ _ _ _ => rfl, fun _ _ _ _ _ _ => rfl, fun _ _ _ => rfl⟩

end GitlabExport

namespace GitlabExport

/-- C6: a fully successful run executes active projects, then (only with the
archived flag) archived projects, then groups, then users, in that order;
without the flag `archived_projects.csv` is never touched. -/
theorem main_stage_order {ε : Type} (args : Args) (stamp : String) (fs0 : FS)
    (api : Api ε)
    (herr : (mainRun args stamp fs0 api).err = none)
    (hexit : (mainRun args stamp fs0 api).exitCode = none) :
    (mainRun args stamp fs0 api).stages =
      (if args.includeArchived then
        [Stage.activeProjects, Stage.archivedProjects, Stage.groups, Stage.users]
      else
        [Stage.activeProjects, Stage.groups, Stage.users]) ∧
    (args.includeArchived = false →
      lookupFile (mainRun args stamp fs0 api).fs "archived_projects.csv" =
        lookupFile fs0 "archived_projects.csv") := by
  by_cases hu : args.url = ""
  · simp [mainRun, hu] at hexit
  by_cases ht : args.token = ""
  · simp [mainRun, hu, ht] at hexit
  rcases hauth : api.auth with e | u
  · simp [mainRun, hu, ht, hauth] at herr
  cases u
  have h1 : (export_projects (api.projectPages false) api.projectDetail
      api.projectMembersAll api.projectMembersDirect args.membersScope).2 = none := by
    rcases hx : (export_projects (api.projectPages false) api.projectDetail
        api.projectMembersAll api.projectMembersDirect args.membersScope).2 with _ | e
    · rfl
    · simp [mainRun, hu, ht, hauth, hx] at herr
  by_cases harch : args.includeArchived = true
  · have h2 : (export_projects (api.projectPages true) api.projectDetail
        api.projectMembersAll api.projectMembersDirect args.membersScope).2 = none := by
      rcases hx : (export_projects (api.projectPages true) api.projectDetail
          api.projectMembersAll api.projectMembersDirect args.membersScope).2 with _ | e
      · rfl
      · simp [mainRun, hu, ht, hauth, h1, harch, hx] at herr
    have hg : (export_groups api.groupPages api.groupDetail
        api.groupMembersAll api.groupMembersDirect args.membersScope).2 = none := by
      rcases hx : (export_groups api.groupPages api.groupDetail
          api.groupMembersAll api.groupMembersDirect args.membersScope).2 with _ | e
      · rfl
      · simp [mainRun, groupsUsersStages, hu, ht, hauth, h1, harch, h2, hx] at herr
    have hus : (export_users api.userPages api.userDetail).2 = none := by
      rcases hx : (export_users api.userPages api.userDetail).2 with _ | e
      · rfl
      · simp [mainRun, groupsUsersStages, hu, ht, hauth, h1, harch, h2, hg, hx]
          at herr
    constructor
    · simp [mainRun, groupsUsersStages, hu, ht, hauth, h1, harch, h2, hg, hus]
    · intro hfalse
      rw [harch] at hfalse
      exact absurd hfalse (by simp)
  · have hg : (export_groups api.groupPages api.groupDetail
        api.groupMembersAll api.groupMembersDirect args.membersScope).2 = none := by
      rcases hx : (export_groups api.groupPages api.groupDetail
          api.groupMembersAll api.groupMembersDirect args.membersScope).2 with _ | e
      · rfl
      · simp [mainRun, groupsUsersStages, hu, ht, hauth, h1, harch, hx] at herr
    have hus : (export_users api.userPages api.userDetail).2 = none := by
      rcases hx : (export_users api.userPages api.userDetail).2 with _ | e
      · rfl
      · simp [mainRun, groupsUsersStages, hu, ht, hauth, h1, harch, hg, hx] at herr
    constructor
    · simp [mainRun, groupsUsersStages, hu, ht, hauth, h1, harch, hg, hus]
    · intro _
      have hfs : (mainRun args stamp fs0 api).fs =
          writeFile
            (writeFile
              (writeFile fs0 "projects.csv"
                (export_projects (api.projectPages false) api.projectDetail
                  api.projectMembersAll api.projectMembersDirect
                  args.membersScope).1)
              "groups.csv"
              (export_groups api.groupPages api.groupDetail
                api.groupMembersAll api.groupMembersDirect args.membersScope).1)
            "users.csv" (export_users api.userPages api.userDetail).1 := by
        simp [mainRun, groupsUsersStages, hu, ht, hauth, h1, harch, hg, hus]
      rw [hfs, lookupFile_writeFile_ne _ _ _ _ (by decide),
        lookupFile_writeFile_ne _ _ _ _ (by decide),
        lookupFile_writeFile_ne _ _ _ _ (by decide)]

/-- Witness for C6 at a trivial all-successful API, with and without the
archived flag. -/
theorem main_stage_order_witness :
    (mainRun ⟨"https://gl", "tok", "out", false, "all"⟩ "20240101" [] trivialApi).stages =
      [Stage.activeProjects, Stage.groups, Stage.users] ∧
    lookupFile
      (mainRun ⟨"https://gl", "tok", "out", false, "all"⟩ "20240101" [] trivialApi).fs
      "archived_projects.csv" = none := by
  have h := main_stage_order ⟨"https://gl", "tok", "out", false, "all"⟩
    "20240101" [] trivialApi (by decide) (by decide)
  refine ⟨?_, ?_⟩
  · rw [h.1]
    rfl
  · rw [h.2 rfl]
    rfl

/-- C7: a transport/API exception during a walk is neither caught nor
retried: the loop stops with exactly the rows of the entities processed
before it, the exception escapes the exporter, and `main` then aborts the
run, leaving the already-written file on disk and starting no later stage. -/
theorem transport_error_spec {ε : Type} (good : List ProjectStub)
    (s : ProjectStub) (rest : List ProjectStub)
    (getDetail : Int → Except ε Project)
    (getMembers : Int → Except ε (List Member))
    (detail : Int → Project) (mems : Int → List Member) (e : ε)
    (hgood : ∀ g ∈ good, getDetail g.id = Except.ok (detail g.id) ∧
      getMembers (detail g.id).id = Except.ok (mems (detail g.id).id))
    (hbad : getDetail s.id = Except.error e ∨
      ∃ p, getDetail s.id = Except.ok p ∧ getMembers p.id = Except.error e) :
    projectsLoop getDetail getMembers (good ++ s :: rest) =
      (good.map (fun g => projectRow (detail g.id)
        (format_members (mems (detail g.id).id))), some e) ∧
    (∀ (args : Args) (stamp : String) (fs0 : FS) (api : Api ε),
      args.url ≠ "" → args.token ≠ "" → api.auth = Except.ok () →
      (export_projects (api.projectPages false) api.projectDetail
        api.projectMembersAll api.projectMembersDirect args.membersScope).2 =
          some e →
      mainRun args stamp fs0 api =
        { exitCode := none,
          dirCreated :=
            some (if args.outdir = "" then "gitlab_export_" ++ stamp
              else args.outdir),
          authAttempted := true,
          fs := writeFile fs0 "projects.csv"
            (export_projects (api.projectPages false) api.projectDetail
              api.projectMembersAll api.projectMembersDirect
              args.membersScope).1,
          stages := [Stage.activeProjects], err := some e,
          reportedDir := none }) ∧
    (∀ (pagesOk : List (List ProjectStub))
      (pagesRest : List (Except ε (List ProjectStub))) (scope : String),
      export_projects (pagesOk.map Except.ok ++ Except.error e :: pagesRest)
          (fun i => Except.ok (detail i)) (fun i => Except.ok (mems i))
          (fun i => Except.ok (mems i)) scope =
        (projectsHeader :: pagesOk.flatten.map (fun st => projectRow (detail st.id)
          (format_members (mems (detail st.id).id))), some e)) := by
  refine ⟨?_, ?_, ?_⟩
  · revert hgood
    induction good with
    | nil =>
        intro _
        rcases hbad with hd | ⟨p, hd, hm⟩
        · simp [projectsLoop, hd]
        · simp [projectsLoop, hd, hm]
    | cons g gs ih =>
        intro hgood
        obtain ⟨hd, hm⟩ := hgood g (List.mem_cons_self g gs)
        have ih' := ih (fun x hx => hgood x (List.mem_cons_of_mem g hx))
        simp [projectsLoop, hd, hm, ih']
  · intro args stamp fs0 api hurl htok hauth hfail
    simp [mainRun, hurl, htok, hauth, hfail]
  · intro pagesOk pagesRest scope
    by_cases hs : scope = "all" <;>
      simp [export_projects, drainPages_error, projectsLoop_ok, hs]

/-- Witness for C7: entity 1 succeeds, entity 2's detail re-fetch raises,
entity 3 is never reached; exactly entity 1's row is flushed and the
exception surfaces. -/
theorem transport_error_spec_witness :
    projectsLoop
        (fun i => if i = 2 then Except.error "boom"
          else Except.ok (⟨i, none, none, none, none, none, none⟩ : Project))
        (fun _ => Except.ok ([] : List Member))
        ([⟨1⟩] ++ (⟨2⟩ : ProjectStub) :: [⟨3⟩]) =
      ([projectRow ⟨1, none, none, none, none, none, none⟩ (format_members [])],
        some "boom") :=
  (transport_error_spec [⟨1⟩] ⟨2⟩ [⟨3⟩]
      (fun i => if i = 2 then Except.error "boom"
        else Except.ok (⟨i, none, none, none, none, none, none⟩ : Project))
      (fun _ => Except.ok ([] : List Member))
      (fun i => ⟨i, none, none, none, none, none, none⟩)
      (fun _ => []) "boom"
      (by
        intro g hg
        simp only [List.mem_singleton] at hg
        subst hg
        exact ⟨by simp, rfl⟩)
      (Or.inl (by simp))).1

end GitlabExport

namespace GitlabExport

/-! ### Concrete evaluations of the embedded functions -/

example : access_level_name (some 30) = "Developer" := by decide

example :
    format_members
      [⟨some "alice", none, none, some 30⟩, ⟨none, some "Bob X", none, some 50⟩] =
      "Bob X:Owner;alice:Developer" := by decide

example :
    format_members
      [⟨some "alice", none, none, some 30⟩, ⟨some "alice", none, none, some 30⟩] =
      "alice:Developer" := by decide

end GitlabExport
